import Mathlib

/-!
Verification of the weight-log application's record persistence and
date-range aggregation logic.

The development shallowly embeds the program's core:
* `src/src/db.js` — the IndexedDB-backed record store (`getRecord`,
  `upsertRecord`, `getAllRecords`), modelled as a list of records in which
  `upsertRecord` replaces by date (IndexedDB `put` on a store with
  `keyPath: 'date'`).
* `src/unnamed/part_000` — one UI variant (`handleSave`, `loadDataForDate`,
  `handleExport`, `updateReport`, `renderReportTable`, `renderSummary`).
* `src/unnamed/part_001` — a second UI variant (`saveCurrent`, `exportCSV`,
  `clampDateRange`, `parseISODate`, `safeNumber`, `updateReport`).

JavaScript numbers are modelled as exact rationals `ℚ`; `null`/`undefined`
fields as `Option`.  So that every definition can be evaluated by kernel
reduction on concrete inputs, rational arithmetic is performed by the
`qAdd`/`qSub`/`qMul`/`qDiv`/`qLe`/`qLt`/`qMin`/`qMax`/`qFloor` operations
below, each proved equal to the corresponding Mathlib operation on `ℚ`
(the library operations are `irreducible`, which blocks evaluation).

Input-box contents are modelled as strings, with the numeric parsers
(`parseFloat`, `parseInt`, `Number`) embedded for well-formed decimal
numerals (the only values a numeric input control produces); a non-numeric
non-empty string is treated as non-finite (NaN) and mapped to `none`.
JavaScript string comparison (`<`, `>=`, and `localeCompare` on ASCII date
strings) is modelled by code-point lexicographic order `lexLe`, and the
stable `Array.prototype.sort` by the stable `List.insertionSort`.
-/

namespace WeightLog

-- ---------------------------------------------------------------------
-- Kernel-computable rational arithmetic, with bridges to `ℚ`'s own
-- ---------------------------------------------------------------------

/-- Rational addition by cross multiplication (kernel-computable). -/
def qAdd (a b : ℚ) : ℚ := mkRat (a.num * b.den + b.num * a.den) (a.den * b.den)

/-- Rational subtraction by cross multiplication (kernel-computable). -/
def qSub (a b : ℚ) : ℚ := mkRat (a.num * b.den - b.num * a.den) (a.den * b.den)

/-- Rational negation (kernel-computable). -/
def qNeg (a : ℚ) : ℚ := mkRat (-a.num) a.den

/-- Rational multiplication (kernel-computable). -/
def qMul (a b : ℚ) : ℚ := mkRat (a.num * b.num) (a.den * b.den)

/-- Rational inverse (kernel-computable). -/
def qInv (a : ℚ) : ℚ := Rat.divInt a.den a.num

/-- Rational division (kernel-computable). -/
def qDiv (a b : ℚ) : ℚ := qMul a (qInv b)

/-- Boolean `≤` on rationals (kernel-computable). -/
def qLe (a b : ℚ) : Bool := a.num * b.den ≤ b.num * a.den

/-- Boolean `<` on rationals (kernel-computable). -/
def qLt (a b : ℚ) : Bool := a.num * b.den < b.num * a.den

/-- Minimum of two rationals (kernel-computable). -/
def qMin (a b : ℚ) : ℚ := if qLe a b then a else b

/-- Maximum of two rationals (kernel-computable). -/
def qMax (a b : ℚ) : ℚ := if qLe a b then b else a

/-- Floor of a rational (kernel-computable). -/
def qFloor (a : ℚ) : ℤ := a.num / (a.den : ℤ)

theorem qAdd_eq (a b : ℚ) : qAdd a b = a + b := (Rat.add_def' a b).symm

theorem qSub_eq (a b : ℚ) : qSub a b = a - b := (Rat.sub_def' a b).symm

theorem qNeg_eq (a : ℚ) : qNeg a = -a := by
  rw [qNeg, ← Rat.neg_mkRat, Rat.mkRat_self]

theorem qMul_eq (a b : ℚ) : qMul a b = a * b := by
  rw [qMul, Rat.mul_def a b, Rat.mkRat_def, dif_neg (Nat.mul_ne_zero a.den_nz b.den_nz)]

theorem qInv_eq (a : ℚ) : qInv a = a⁻¹ := (Rat.inv_def a).symm

theorem qDiv_eq (a b : ℚ) : qDiv a b = a / b := by
  rw [qDiv, qMul_eq, qInv_eq, div_eq_mul_inv]

theorem qLe_iff (a b : ℚ) : qLe a b = true ↔ a ≤ b := by
  rw [qLe, decide_eq_true_iff, Rat.le_def]

theorem qLt_iff (a b : ℚ) : qLt a b = true ↔ a < b := by
  rw [qLt, decide_eq_true_iff, Rat.lt_def]

theorem qMin_eq (a b : ℚ) : qMin a b = min a b := by
  rw [qMin, min_def]
  by_cases h : a ≤ b
  · rw [if_pos ((qLe_iff a b).mpr h), if_pos h]
  · rw [if_neg (fun hb => h ((qLe_iff a b).mp hb)), if_neg h]

theorem qMax_eq (a b : ℚ) : qMax a b = max a b := by
  rw [qMax, max_def]
  by_cases h : a ≤ b
  · rw [if_pos ((qLe_iff a b).mpr h), if_pos h]
  · rw [if_neg (fun hb => h ((qLe_iff a b).mp hb)), if_neg h]

theorem qFloor_eq (a : ℚ) : qFloor a = ⌊a⌋ := by
  rw [qFloor, Rat.floor_def]

-- ---------------------------------------------------------------------
-- Data model and the record store (`src/src/db.js`)
-- ---------------------------------------------------------------------

/-- A record of the `records` object store (`db.js`, `keyPath: 'date'`):
`{ date, weight, total_calorie }` with `null` fields as `none`. -/
structure Record where
  date : String
  weight : Option ℚ
  total_calorie : Option ℚ
deriving DecidableEq

/-- The record store: contents of the single IndexedDB object store. -/
abbrev Store := List Record

/-- `getRecord(date)` from `db.js`: point lookup by key, `null` when absent. -/
def getRecord (s : Store) (d : String) : Option Record :=
  List.find? (fun r => r.date = d) s

/-- `upsertRecord(record)` from `db.js`: IndexedDB `put` on a store keyed by
`date` — replaces the record with the matching key, or inserts. -/
def upsertRecord (s : Store) (r : Record) : Store :=
  if List.any s (fun x => x.date = r.date) then
    List.map (fun x => if x.date = r.date then r else x) s
  else
    s ++ [r]

/-- `getAllRecords()` from `db.js`: snapshot of the entire table.  (IndexedDB
returns it in key order; no caller relies on that order — each caller sorts —
so the model returns the store's contents as they are.) -/
def getAllRecords (s : Store) : List Record := s

-- ---------------------------------------------------------------------
-- String and number primitives
-- ---------------------------------------------------------------------

/-- Code-point lexicographic order on strings of characters: the effect of
JavaScript `<=`/`>=` (and of `localeCompare` used as a sort comparator) on
the ASCII date strings this program compares. -/
def lexLe : List Char → List Char → Bool
  | [], _ => true
  | _ :: _, [] => false
  | a :: as, b :: bs => if a < b then true else if b < a then false else lexLe as bs

/-- Numeric value of a list of decimal digit characters. -/
def natOfDigits (l : List Char) : ℕ :=
  List.foldl (fun n c => n * 10 + (c.toNat - '0'.toNat)) 0 l

/-- Parse an unsigned decimal numeral `digits[.digits]` (at least one digit
present) into a rational; `none` otherwise. -/
def parseUnsigned (l : List Char) : Option ℚ :=
  let ip := List.takeWhile Char.isDigit l
  let rest := List.dropWhile Char.isDigit l
  match rest with
  | [] => if ip.isEmpty then none else some (natOfDigits ip : ℚ)
  | '.' :: fr =>
    if List.all fr Char.isDigit && !(ip.isEmpty && fr.isEmpty) then
      some (qAdd (natOfDigits ip : ℚ) (qDiv (natOfDigits fr : ℚ) ((10 ^ fr.length : ℕ) : ℚ)))
    else none
  | _ => none

/-- JavaScript numeric conversion (`Number(s)` / `parseFloat(s)`) modelled for
well-formed decimal numerals `[-]digits[.digits]`; `none` stands for NaN
(empty or non-numeric input).  Strings a numeric input control cannot produce
(exponents, stray text a real `parseFloat` would truncate) are outside the
model and also map to `none`. -/
def jsNumber (s : String) : Option ℚ :=
  match s.data with
  | '-' :: rest => Option.map qNeg (parseUnsigned rest)
  | l => parseUnsigned l

/-- `parseInt(s, 10)`: leading optional sign and decimal digits; anything
after the digits (e.g. a fractional part) is ignored; NaN (`none`) when no
leading digit exists. -/
def parseIntJS (s : String) : Option ℚ :=
  match s.data with
  | '-' :: rest =>
    let ds := List.takeWhile Char.isDigit rest
    if ds.isEmpty then none else some (qNeg (natOfDigits ds : ℚ))
  | l =>
    let ds := List.takeWhile Char.isDigit l
    if ds.isEmpty then none else some ((natOfDigits ds : ℚ))

/-- `safeNumber(v)` from `part_001`: `''`/`null` → `null`, else `Number(v)`
when finite. -/
def safeNumber (s : String) : Option ℚ :=
  if s = "" then none else jsNumber s

/-- JavaScript `Math.round`: round half toward positive infinity,
`Math.round(x) = ⌊x + 1/2⌋`. -/
def jsRound (q : ℚ) : ℤ := qFloor (qAdd q (mkRat 1 2))

/-- One-decimal rounding `Math.round(v * 10) / 10` from `handleSave`
(`part_000`). -/
def round1 (q : ℚ) : ℚ := qDiv ((jsRound (qMul q 10) : ℤ) : ℚ) 10

/-- JavaScript truncating integer conversion, as performed by
`parseInt(v, 10)` on a number `v` that already has a finite decimal
representation: digits after the point are dropped (truncation toward 0). -/
def jsTruncInt (q : ℚ) : ℤ := Int.tdiv q.num (q.den : ℤ)

/-- Decimal digit string of a natural number left-padded with zeros to
width `k`. -/
def padZeros (s : String) (k : ℕ) : String :=
  String.mk (List.replicate (k - s.length) '0') ++ s

/-- JavaScript number-to-string conversion (template interpolation /
`String(v)`) for rationals with a finite decimal expansion: integers print
with no point, other values print their shortest decimal expansion. -/
def ratToDec (q : ℚ) : String :=
  if q.den = 1 then toString q.num
  else
    match List.find? (fun k => (qMul q ((10 ^ k : ℕ) : ℚ)).den = 1) (List.range' 1 20) with
    | some k =>
      let m := (qMul q ((10 ^ k : ℕ) : ℚ)).num.natAbs
      (if qLt q 0 then "-" else "") ++ toString (m / 10 ^ k) ++ "." ++
        padZeros (toString (m % 10 ^ k)) k
    | none => toString q.num ++ "/" ++ toString q.den

/-- `Number(w).toFixed(1)` as used by `loadDataForDate` (`part_000`) on the
nonnegative stored weights. -/
def toFixed1 (q : ℚ) : String :=
  let n := (jsRound (qMul q 10)).natAbs
  (if qLt q 0 then "-" else "") ++ toString (n / 10) ++ "." ++ toString (n % 10)

-- ---------------------------------------------------------------------
-- Sorting by date (`records.sort((a, b) => a.date.localeCompare(b.date))`)
-- ---------------------------------------------------------------------

/-- The date order used by every sort in the program. -/
def dateRel (a b : Record) : Prop := lexLe a.date.data b.date.data = true

instance : DecidableRel dateRel := fun a b =>
  inferInstanceAs (Decidable (lexLe a.date.data b.date.data = true))

/-- `records.sort((a, b) => a.date.localeCompare(b.date))`: a stable sort by
date, modelled by the stable `insertionSort`. -/
def sortByDate (rs : List Record) : List Record := List.insertionSort dateRel rs

-- ---------------------------------------------------------------------
-- Save paths
-- ---------------------------------------------------------------------

/-- The UI mode: `'morning'` (weight entry) or `'night'` (calorie entry). -/
inductive Mode where
  | morning
  | night
deriving DecidableEq

/-- Result of a save handler: the store afterwards, and whether a write was
issued (validation failure aborts with an alert and leaves the store as it
was). -/
structure SaveResult where
  store : Store
  saved : Bool
deriving DecidableEq

/-- `loadDataForDate` (`part_000`): the contents of the weight and calorie
input boxes after loading date `d` — weight shows `Number(w).toFixed(1)` or
`''`; calorie shows `record.total_calorie || ''` (so a stored `0` shows as
`''`, because `0` is falsy). -/
def loadDataForDate (s : Store) (d : String) : String × String :=
  let cur := (getRecord s d).getD ⟨d, none, none⟩
  ( match cur.weight with
    | some w => toFixed1 w
    | none => ""
  , match cur.total_calorie with
    | some c => if c = 0 then "" else ratToDec c
    | none => "" )

/-- `handleSave` (`part_000`): validate (`morning`: `parseFloat` of the weight
box, NaN or `<= 0` rejected; `night`: `parseInt` of the calorie box, NaN or
`< 0` rejected), then write a record built from the two input boxes — rounded
weight when the weight box is non-empty, parsed calorie when the calorie box
is non-empty.  (A non-numeric non-empty box would store NaN in JavaScript;
that is outside the numeric model and cannot arise from a number input.) -/
def handleSave (s : Store) (mode : Mode) (currentDate wIn cIn : String) : SaveResult :=
  let weightVal := jsNumber wIn
  let calorieVal := parseIntJS cIn
  let ok : Bool :=
    match mode with
    | Mode.morning =>
      match weightVal with
      | none => false
      | some w => !qLe w 0
    | Mode.night =>
      match calorieVal with
      | none => false
      | some c => !qLt c 0
  if ok then
    let weightToSave : Option ℚ := if wIn = "" then none else Option.map round1 (jsNumber wIn)
    let calToSave : Option ℚ := if cIn = "" then none else parseIntJS cIn
    ⟨upsertRecord s ⟨currentDate, weightToSave, calToSave⟩, true⟩
  else
    ⟨s, false⟩

/-- `saveCurrent` (`part_001`): validate (`morning`: weight `null` or `<= 0`
rejected; `night`: calorie `null` or `<= 0` rejected), then merge with the
stored record (`base`) so the untouched field keeps its prior value, and
upsert. -/
def saveCurrent (s : Store) (mode : Mode) (dateISO wIn cIn : String) : SaveResult :=
  if dateISO = "" then ⟨s, false⟩
  else
    let weightVal := safeNumber wIn
    let calVal := safeNumber cIn
    let ok : Bool :=
      match mode with
      | Mode.morning =>
        match weightVal with
        | none => false
        | some w => !qLe w 0
      | Mode.night =>
        match calVal with
        | none => false
        | some c => !qLe c 0
    if ok then
      let base := (getRecord s dateISO).getD ⟨dateISO, none, none⟩
      let next : Record :=
        ⟨dateISO,
         match mode with
         | Mode.morning => weightVal
         | Mode.night => base.weight,
         match mode with
         | Mode.night => calVal
         | Mode.morning => base.total_calorie⟩
      ⟨upsertRecord s next, true⟩
    else
      ⟨s, false⟩

-- ---------------------------------------------------------------------
-- CSV export
-- ---------------------------------------------------------------------

/-- A CSV cell: the number's decimal string, or `''` for `null`. -/
def csvCell (v : Option ℚ) : String :=
  match v with
  | none => ""
  | some q => ratToDec q

/-- One CSV data row, `date,weight,total_calorie` with empty cells for
absent fields (shared shape of both variants' rows). -/
def csvRow (r : Record) : String :=
  r.date ++ "," ++ csvCell r.weight ++ "," ++ csvCell r.total_calorie

/-- `exportCSV` (`part_001`), as the list of lines later joined with `'\n'`:
header `date,weight,total_calorie`, then one row per record in ascending
date order. -/
def exportLines (rs : List Record) : List String :=
  "date,weight,total_calorie" :: List.map csvRow (sortByDate rs)

/-- `exportCSV` (`part_001`): `lines.join('\n')`. -/
def exportCSV (rs : List Record) : String :=
  String.intercalate "\n" (exportLines rs)

/-- `handleExport` (`part_000`): aborts with an alert on an empty table;
otherwise builds a `data:` URI whose payload starts with the capitalized
header `Date,Weight,TotalCalorie` and has one `'\n'`-terminated row per
record in ascending date order. -/
def handleExport (rs : List Record) : Option String :=
  if rs.isEmpty then none
  else
    some ("data:text/csv;charset=utf-8," ++ "Date,Weight,TotalCalorie\n" ++
      String.join (List.map (fun r => csvRow r ++ "\n") (sortByDate rs)))

/-- First line of a text: the characters before the first `'\n'`. -/
def firstLine (s : String) : String :=
  String.mk (List.takeWhile (fun c => c ≠ '\n') s.data)

-- ---------------------------------------------------------------------
-- Range queries (report views)
-- ---------------------------------------------------------------------

/-- The filter-and-sort pipeline of `updateReport` (`part_000`):
`allRecords.filter(r => r.date >= start && r.date <= end)` (plain string
comparison), then sort ascending by date. -/
def reportRange000 (db : Store) (startStr endStr : String) : List Record :=
  sortByDate (List.filter
    (fun r => lexLe startStr.data r.date.data && lexLe r.date.data endStr.data) db)

/-- `updateReport` (`part_000`): returns nothing (no render) when either
bound is the empty string, else the filtered, sorted records. -/
def updateReport000 (db : Store) (startStr endStr : String) : Option (List Record) :=
  if startStr = "" || endStr = "" then none
  else some (reportRange000 db startStr endStr)

/-- `isLeapYear` per the Gregorian rules applied by JavaScript's `Date`. -/
def isLeapYear (y : ℕ) : Bool := y % 4 = 0 && (y % 100 ≠ 0 || y % 400 = 0)

/-- Days in month `m` of year `y`, as validated by JavaScript's ISO date
parser. -/
def daysInMonth (y m : ℕ) : ℕ :=
  if m = 2 then (if isLeapYear y then 29 else 28)
  else if m = 4 || m = 6 || m = 9 || m = 11 then 30 else 31

/-- `parseISODate` (`part_001`): `new Date(s)` followed by
`setHours(0, 0, 0, 0)`, modelled for canonical `YYYY-MM-DD` strings (the
format produced by date inputs).  The result is the day key
`y * 10000 + m * 100 + d`, which is order-isomorphic to the timestamp
(`getTime`) the code compares; `null` (`none`) for empty or non-parsable
strings — JavaScript's ISO parser rejects out-of-range components. -/
def parseISODate (str : String) : Option ℕ :=
  match str.data with
  | [y1, y2, y3, y4, '-', m1, m2, '-', d1, d2] =>
    if List.all [y1, y2, y3, y4, m1, m2, d1, d2] Char.isDigit then
      let y := natOfDigits [y1, y2, y3, y4]
      let m := natOfDigits [m1, m2]
      let d := natOfDigits [d1, d2]
      if 1 ≤ m && m ≤ 12 && 1 ≤ d && d ≤ daysInMonth y m then
        some (y * 10000 + m * 100 + d)
      else none
    else none
  | _ => none

/-- `clampDateRange` (`part_001`): `null` when either bound fails to parse
or start is after end; otherwise the pair of parsed bounds. -/
def clampDateRange (startStr endStr : String) : Option (ℕ × ℕ) :=
  match parseISODate startStr, parseISODate endStr with
  | some ks, some ke => if ks > ke then none else some (ks, ke)
  | _, _ => none

/-- The record filter of `updateReport` (`part_001`): keep records whose date
parses and whose day key lies within the bounds. -/
def inRange001 (ks ke : ℕ) (r : Record) : Bool :=
  match parseISODate r.date with
  | some k => ks ≤ k && k ≤ ke
  | none => false

/-- `updateReport` (`part_001`): aborts with an alert (`none`) when
`clampDateRange` rejects the bounds; otherwise the filtered records sorted
ascending by date. -/
def updateReport001 (db : Store) (startStr endStr : String) : Option (List Record) :=
  match clampDateRange startStr endStr with
  | none => none
  | some (ks, ke) => some (sortByDate (List.filter (inRange001 ks ke) db))

-- ---------------------------------------------------------------------
-- Day-over-day weight diffs
-- ---------------------------------------------------------------------

/-- The diff loop of `renderReportTable` (`part_000`): rows without a weight
are skipped entirely (no table row, `prevWeight` kept); a row with a weight
shows `w - prevWeight` when a previous weight exists. One output entry per
rendered (present-weight) row. -/
def renderReportDiffs : Option ℚ → List (Option ℚ) → List (Option ℚ)
  | _, [] => []
  | prev, none :: rest => renderReportDiffs prev rest
  | prev, some w :: rest =>
    Option.map (fun p => qSub w p) prev :: renderReportDiffs (some w) rest

/-- The diff loop of `updateReport` (`part_001`): every row is rendered; a
row without a weight shows no diff and keeps `prevWeight`; a row with a
weight shows `w - prevWeight` when a previous weight exists.  One output
entry per row. -/
def reportDiffs001 : Option ℚ → List (Option ℚ) → List (Option ℚ)
  | _, [] => []
  | prev, none :: rest => none :: reportDiffs001 prev rest
  | prev, some w :: rest =>
    Option.map (fun p => qSub w p) prev :: reportDiffs001 (some w) rest

/-- The diff column of `renderReportTable` (`part_000`) for a record
sequence. -/
def diffColumn000 (rs : List Record) : List (Option ℚ) :=
  renderReportDiffs none (List.map Record.weight rs)

/-- The diff column of `updateReport` (`part_001`) for a record sequence. -/
def diffColumn001 (rs : List Record) : List (Option ℚ) :=
  reportDiffs001 none (List.map Record.weight rs)

-- ---------------------------------------------------------------------
-- Summary aggregators
-- ---------------------------------------------------------------------

/-- Sum of a list of rationals (`reduce((a, b) => a + b, 0)`). -/
def sumQ (l : List ℚ) : ℚ := List.foldl qAdd 0 l

/-- The weight values `renderSummary` (`part_000`) aggregates: present
weights, with values `<= 0` discarded (`filter(w => w !== null && w > 0)`). -/
def weightValues000 (rs : List Record) : List ℚ :=
  List.filter (fun w => qLt 0 w) (List.filterMap Record.weight rs)

/-- The calorie values `renderSummary` (`part_000`) aggregates:
`parseInt(c, 10)` of the present calories, with values `<= 0` discarded. -/
def calorieValues000 (rs : List Record) : List ℚ :=
  List.filter (fun c => qLt 0 c)
    (List.map (fun c => ((jsTruncInt c : ℤ) : ℚ)) (List.filterMap Record.total_calorie rs))

/-- The weight summary box of `renderSummary` (`part_000`): count, mean,
min (`Math.min(...weights)`), max. -/
structure WeightStats where
  n : ℕ
  avg : ℚ
  wmin : ℚ
  wmax : ℚ
deriving DecidableEq

/-- The calorie summary box of `renderSummary` (`part_000`): count and
rounded mean. -/
structure CalStats where
  n : ℕ
  avg : ℤ
deriving DecidableEq

/-- `renderSummary` (`part_000`), weight side: `'-'` (`none`) when no value
survives the filter, else count / mean / min / max. -/
def renderSummaryWeight (rs : List Record) : Option WeightStats :=
  match weightValues000 rs with
  | [] => none
  | w :: ws =>
    some ⟨(w :: ws).length, qDiv (sumQ (w :: ws)) (((w :: ws).length : ℕ) : ℚ),
          List.foldl qMin w ws, List.foldl qMax w ws⟩

/-- `renderSummary` (`part_000`), calorie side: `'-'` (`none`) when no value
survives the filter, else count and `Math.round` of the mean. -/
def renderSummaryCalorie (rs : List Record) : Option CalStats :=
  match calorieValues000 rs with
  | [] => none
  | c :: cs =>
    some ⟨(c :: cs).length, jsRound (qDiv (sumQ (c :: cs)) (((c :: cs).length : ℕ) : ℚ))⟩

/-- The weight values the summary of `updateReport` (`part_001`) aggregates:
`map(safeNumber).filter(v => v !== null)` — only absent values are
discarded; values `<= 0` are kept. -/
def weightValues001 (rs : List Record) : List ℚ :=
  List.filterMap Record.weight rs

/-- The calorie values the summary of `updateReport` (`part_001`)
aggregates: only absent values are discarded. -/
def calorieValues001 (rs : List Record) : List ℚ :=
  List.filterMap Record.total_calorie rs

/-- A summary box of `updateReport` (`part_001`): count and mean only (no
min/max in this variant). -/
structure MeanStats where
  n : ℕ
  avg : ℚ
deriving DecidableEq

/-- The weight summary of `updateReport` (`part_001`): `'-'` (`none`) only
when no numeric value is present. -/
def summaryWeight001 (rs : List Record) : Option MeanStats :=
  match weightValues001 rs with
  | [] => none
  | w :: ws => some ⟨(w :: ws).length, qDiv (sumQ (w :: ws)) (((w :: ws).length : ℕ) : ℚ)⟩

/-- The calorie summary of `updateReport` (`part_001`): `'-'` (`none`) only
when no numeric value is present (the display rounds the mean with
`Math.round`). -/
def summaryCalorie001 (rs : List Record) : Option MeanStats :=
  match calorieValues001 rs with
  | [] => none
  | c :: cs => some ⟨(c :: cs).length, qDiv (sumQ (c :: cs)) (((c :: cs).length : ℕ) : ℚ)⟩

-- ---------------------------------------------------------------------
-- Operation sequences against the store (for the primary-key invariant)
-- ---------------------------------------------------------------------

/-- One store operation of `db.js`. -/
inductive DBOp where
  | get (d : String)
  | upsert (r : Record)
  | getAll
deriving DecidableEq

/-- Effect of one operation on the store (reads leave it unchanged). -/
def applyOp (s : Store) : DBOp → Store
  | DBOp.get _ => s
  | DBOp.getAll => s
  | DBOp.upsert r => upsertRecord s r

/-- The store reached by running a sequence of operations from the empty
store (a fresh database). -/
def runOps (ops : List DBOp) : Store := List.foldl applyOp [] ops

/-- At most one record per date: the primary-key invariant. -/
def atMostOnePerDate (s : Store) : Prop :=
  ∀ d : String, (List.filter (fun r => r.date = d) s).length ≤ 1

-- ---------------------------------------------------------------------
-- Basic lemmas about the embedded primitives
-- ---------------------------------------------------------------------

theorem lexLe_total : ∀ a b : List Char, lexLe a b = true ∨ lexLe b a = true
  | [], _ => Or.inl rfl
  | _ :: _, [] => Or.inr rfl
  | a :: as, b :: bs => by
    simp only [lexLe]
    rcases lt_trichotomy a b with h | h | h
    · left
      rw [if_pos h]
    · subst h
      simp only [if_neg (lt_irrefl a)]
      exact lexLe_total as bs
    · right
      rw [if_pos h]

theorem lexLe_trans :
    ∀ a b c : List Char, lexLe a b = true → lexLe b c = true → lexLe a c = true
  | [], _, _, _, _ => rfl
  | _ :: _, [], _, h1, _ => by simp [lexLe] at h1
  | _ :: _, _ :: _, [], _, h2 => by simp [lexLe] at h2
  | a :: as, b :: bs, c :: cs, h1, h2 => by
    simp only [lexLe] at h1 h2 ⊢
    by_cases hab : a < b
    · by_cases hbc : b < c
      · rw [if_pos (lt_trans hab hbc)]
      · by_cases hcb : c < b
        · rw [if_neg hbc, if_pos hcb] at h2
          exact absurd h2 (by simp)
        · have hbc' : b = c := le_antisymm (not_lt.mp hcb) (not_lt.mp hbc)
          rw [if_pos (hbc' ▸ hab)]
    · by_cases hba : b < a
      · rw [if_neg hab, if_pos hba] at h1
        exact absurd h1 (by simp)
      · have hab' : a = b := le_antisymm (not_lt.mp hba) (not_lt.mp hab)
        subst hab'
        rw [if_neg hab, if_neg hba] at h1
        by_cases hbc : a < c
        · rw [if_pos hbc]
        · by_cases hcb : c < a
          · rw [if_neg hbc, if_pos hcb] at h2
            exact absurd h2 (by simp)
          · rw [if_neg hbc, if_neg hcb] at h2 ⊢
            exact lexLe_trans as bs cs h1 h2

instance : IsTotal Record dateRel :=
  ⟨fun a b => lexLe_total a.date.data b.date.data⟩

instance : IsTrans Record dateRel :=
  ⟨fun _ _ _ h1 h2 => lexLe_trans _ _ _ h1 h2⟩

theorem sortByDate_perm (rs : List Record) : List.Perm (sortByDate rs) rs :=
  List.perm_insertionSort dateRel rs

theorem sortByDate_sorted (rs : List Record) : List.Pairwise dateRel (sortByDate rs) :=
  List.sorted_insertionSort dateRel rs

theorem find?_replace_self (s : Store) (r : Record)
    (hany : List.any s (fun x => decide (x.date = r.date)) = true) :
    List.find? (fun x => decide (x.date = r.date))
      (List.map (fun x => if x.date = r.date then r else x) s) = some r := by
  induction s with
  | nil => simp at hany
  | cons x xs ih =>
    by_cases hx : x.date = r.date
    · rw [List.map_cons, if_pos hx]
      exact List.find?_cons_of_pos _ (by simp)
    · simp only [List.any_cons, decide_eq_true_eq, hx, Bool.false_or] at hany
      rw [List.map_cons, if_neg hx, List.find?_cons_of_neg _ (by simp [hx])]
      exact ih hany

theorem find?_replace_ne (s : Store) (r : Record) (d : String) (hd : d ≠ r.date) :
    List.find? (fun x => decide (x.date = d))
      (List.map (fun x => if x.date = r.date then r else x) s) =
    List.find? (fun x => decide (x.date = d)) s := by
  induction s with
  | nil => rfl
  | cons x xs ih =>
    by_cases hx : x.date = r.date
    · rw [List.map_cons, if_pos hx,
        List.find?_cons_of_neg _ (by simp only [decide_eq_true_eq]; exact fun h => hd h.symm),
        List.find?_cons_of_neg _ (by simp only [hx, decide_eq_true_eq]; exact fun h => hd h.symm)]
      exact ih
    · rw [List.map_cons, if_neg hx]
      by_cases hxd : x.date = d
      · rw [List.find?_cons_of_pos _ (by simp [hxd]), List.find?_cons_of_pos _ (by simp [hxd])]
      · rw [List.find?_cons_of_neg _ (by simp [hxd]), List.find?_cons_of_neg _ (by simp [hxd])]
        exact ih

/-- A `put` on the keyed store makes the written record the one retrieved
at its key. -/
theorem getRecord_upsertRecord (s : Store) (r : Record) :
    getRecord (upsertRecord s r) r.date = some r := by
  rw [getRecord, upsertRecord]
  by_cases hany : List.any s (fun x => decide (x.date = r.date)) = true
  · rw [if_pos hany]
    exact find?_replace_self s r hany
  · rw [if_neg hany, List.find?_append]
    have hnone : List.find? (fun x => decide (x.date = r.date)) s = none := by
      rw [List.find?_eq_none]
      intro x hxmem
      simp only [List.any_eq_true, not_exists, not_and] at hany
      simpa using hany x hxmem
    rw [hnone, List.find?_cons_of_pos _ (by simp)]
    rfl

/-- A read at a different key is unaffected by a `put`. -/
theorem getRecord_upsertRecord_ne (s : Store) (r : Record) (d : String) (hd : d ≠ r.date) :
    getRecord (upsertRecord s r) d = getRecord s d := by
  rw [getRecord, upsertRecord]
  by_cases hany : List.any s (fun x => decide (x.date = r.date)) = true
  · rw [if_pos hany, getRecord]
    exact find?_replace_ne s r d hd
  · rw [if_neg hany, getRecord, List.find?_append,
      List.find?_cons_of_neg _ (by simp only [decide_eq_true_eq]; exact fun h => hd h.symm)]
    simp only [List.find?_nil]
    exact Option.or_none

theorem upsertRecord_dates_nodup (s : Store) (r : Record)
    (h : (List.map Record.date s).Nodup) :
    (List.map Record.date (upsertRecord s r)).Nodup := by
  rw [upsertRecord]
  by_cases hany : List.any s (fun x => decide (x.date = r.date)) = true
  · rw [if_pos hany]
    have hmap : List.map Record.date (List.map (fun x => if x.date = r.date then r else x) s) =
        List.map Record.date s := by
      rw [List.map_map]
      apply List.map_congr_left
      intro x _
      by_cases hx : x.date = r.date
      · simp [hx]
      · simp [hx]
    rw [hmap]
    exact h
  · rw [if_neg hany, List.map_append]
    rw [List.nodup_append]
    refine ⟨h, List.nodup_singleton r.date, ?_⟩
    intro a ha hb
    simp only [List.map_cons, List.map_nil, List.mem_singleton] at hb
    subst hb
    rcases List.mem_map.mp ha with ⟨x, hxmem, hxd⟩
    simp only [List.any_eq_true, not_exists, not_and] at hany
    have hne : ¬x.date = r.date := by simpa using hany x hxmem
    exact hne hxd

theorem atMostOnePerDate_of_nodup (s : Store)
    (h : (List.map Record.date s).Nodup) : atMostOnePerDate s := by
  intro d
  induction s with
  | nil => simp
  | cons x xs ih =>
    rw [List.map_cons, List.nodup_cons] at h
    by_cases hx : x.date = d
    · rw [List.filter_cons_of_pos (by simp [hx])]
      have hnil : List.filter (fun r => decide (r.date = d)) xs = [] := by
        rw [List.filter_eq_nil_iff]
        intro y hy
        simp only [decide_eq_true_eq]
        intro hyd
        have hmem : y.date ∈ List.map Record.date xs := List.mem_map_of_mem Record.date hy
        rw [hyd, ← hx] at hmem
        exact h.1 hmem
      rw [hnil]
      simp
    · rw [List.filter_cons_of_neg (by simp [hx])]
      exact ih h.2

theorem runOps_dates_nodup (ops : List DBOp) :
    (List.map Record.date (runOps ops)).Nodup := by
  rw [runOps]
  have main : ∀ (l : List DBOp) (s : Store), (List.map Record.date s).Nodup →
      (List.map Record.date (List.foldl applyOp s l)).Nodup := by
    intro l
    induction l with
    | nil => intro s hs; exact hs
    | cons op rest ih =>
      intro s hs
      rw [List.foldl_cons]
      apply ih
      cases op with
      | get d => exact hs
      | getAll => exact hs
      | upsert r => exact upsertRecord_dates_nodup s r hs
  exact main ops ([] : Store) (by simp)

-- ---------------------------------------------------------------------
-- Claim-side (specification-worded) definitions
-- ---------------------------------------------------------------------

/-- Spec wording for the diff calculator, applied to the present weights:
each weight is paired with its difference from the previous present weight,
the first one getting no diff. -/
def chainDiffs : ℚ → List ℚ → List (Option ℚ)
  | _, [] => []
  | p, x :: xs => some (x - p) :: chainDiffs x xs

/-- Spec wording for the diff calculator: the first present weight has no
diff; every later one diffs against its predecessor in the present-weight
subsequence. -/
def pairDiffs : List ℚ → List (Option ℚ)
  | [] => []
  | x :: xs => none :: chainDiffs x xs

/-- The diff entries at present-weight positions: pair each row's weight with
its diff entry and keep the entries of rows whose weight is present. -/
def presentDiffs (ws ds : List (Option ℚ)) : List (Option ℚ) :=
  List.map Prod.snd (List.filter (fun pr => pr.1.isSome) (List.zip ws ds))

theorem renderReportDiffs_some (p : ℚ) :
    ∀ ws, renderReportDiffs (some p) ws = chainDiffs p (List.filterMap id ws)
  | [] => rfl
  | none :: rest => by
    simp only [renderReportDiffs, List.filterMap_cons, id]
    exact renderReportDiffs_some p rest
  | some w :: rest => by
    simp only [renderReportDiffs, List.filterMap_cons, id, chainDiffs, Option.map_some,
      qSub_eq]
    exact congrArg (List.cons _) (renderReportDiffs_some w rest)

theorem renderReportDiffs_none :
    ∀ ws, renderReportDiffs none ws = pairDiffs (List.filterMap id ws)
  | [] => rfl
  | none :: rest => by
    simp only [renderReportDiffs, List.filterMap_cons, id]
    exact renderReportDiffs_none rest
  | some w :: rest => by
    simp only [renderReportDiffs, List.filterMap_cons, id, pairDiffs, Option.map_none]
    exact congrArg (List.cons _) (renderReportDiffs_some w rest)

theorem reportDiffs001_some (p : ℚ) :
    ∀ ws, presentDiffs ws (reportDiffs001 (some p) ws) = chainDiffs p (List.filterMap id ws)
  | [] => rfl
  | none :: rest => by
    simp only [reportDiffs001, presentDiffs, List.zip_cons_cons, List.filter_cons,
      Option.isSome_none, List.filterMap_cons, id]
    exact reportDiffs001_some p rest
  | some w :: rest => by
    simp only [reportDiffs001, presentDiffs, List.zip_cons_cons, List.filter_cons,
      Option.isSome_some, List.map_cons, List.filterMap_cons, id, chainDiffs,
      Option.map_some, qSub_eq]
    exact congrArg (List.cons _) (reportDiffs001_some w rest)

theorem reportDiffs001_none :
    ∀ ws, presentDiffs ws (reportDiffs001 none ws) = pairDiffs (List.filterMap id ws)
  | [] => rfl
  | none :: rest => by
    simp only [reportDiffs001, presentDiffs, List.zip_cons_cons, List.filter_cons,
      Option.isSome_none, List.filterMap_cons, id]
    exact reportDiffs001_none rest
  | some w :: rest => by
    simp only [reportDiffs001, presentDiffs, List.zip_cons_cons, List.filter_cons,
      Option.isSome_some, List.map_cons, List.filterMap_cons, id, pairDiffs,
      Option.map_none]
    exact congrArg (List.cons _) (reportDiffs001_some w rest)

-- ---------------------------------------------------------------------
-- Claim theorems
-- ---------------------------------------------------------------------

/-- Claim C6: for every store and record, `upsertRecord(r)` followed by
`getRecord(r.date)` returns a record equal to the one written. -/
theorem upsert_get_roundtrip (s : Store) (r : Record) :
    getRecord (upsertRecord s r) r.date = some r :=
  getRecord_upsertRecord s r

/-- Claim C8: for every sequence of `getRecord`/`upsertRecord`/
`getAllRecords` operations starting from the empty store, the store holds at
most one record per date — `date` behaves as a primary key. -/
theorem store_primary_key_invariant (ops : List DBOp) :
    atMostOnePerDate (runOps ops) :=
  atMostOnePerDate_of_nodup (runOps ops) (runOps_dates_nodup ops)

/-- Claim C4: in both variants the diff column pairs each present-weight row
with the signed difference from the last previously-seen present weight —
absent-weight rows are skipped over, not treated as a reset — the first
present weight gets no diff, and a sequence with a single present-weight
record yields no diff for it. -/
theorem diff_calculator_skips_absent :
    (∀ rs : List Record,
      diffColumn000 rs = pairDiffs (List.filterMap id (List.map Record.weight rs)))
    ∧ (∀ rs : List Record,
      presentDiffs (List.map Record.weight rs) (diffColumn001 rs) =
        pairDiffs (List.filterMap id (List.map Record.weight rs)))
    ∧ (∀ (d : String) (w : ℚ) (c : Option ℚ),
      diffColumn000 [⟨d, some w, c⟩] = [none] ∧ diffColumn001 [⟨d, some w, c⟩] = [none]) := by
  refine ⟨fun rs => renderReportDiffs_none _, fun rs => reportDiffs001_none _, ?_⟩
  intro d w c
  exact ⟨rfl, rfl⟩

-- ---------------------------------------------------------------------
-- Characterizations of the two save handlers
-- ---------------------------------------------------------------------

theorem handleSave_morning_eq (s : Store) (d wIn cIn : String) (w : ℚ)
    (hw : jsNumber wIn = some w) :
    handleSave s Mode.morning d wIn cIn =
      if qLe w 0 then ⟨s, false⟩
      else ⟨upsertRecord s
        ⟨d, if wIn = "" then none else Option.map round1 (jsNumber wIn),
            if cIn = "" then none else parseIntJS cIn⟩, true⟩ := by
  simp only [handleSave, hw]
  cases hq : qLe w 0 with
  | false => simp
  | true => simp

theorem handleSave_morning_nan (s : Store) (d wIn cIn : String)
    (hw : jsNumber wIn = none) :
    handleSave s Mode.morning d wIn cIn = ⟨s, false⟩ := by
  simp only [handleSave, hw]
  simp

theorem handleSave_night_eq (s : Store) (d wIn cIn : String) (c : ℚ)
    (hc : parseIntJS cIn = some c) :
    handleSave s Mode.night d wIn cIn =
      if qLt c 0 then ⟨s, false⟩
      else ⟨upsertRecord s
        ⟨d, if wIn = "" then none else Option.map round1 (jsNumber wIn),
            if cIn = "" then none else parseIntJS cIn⟩, true⟩ := by
  simp only [handleSave, hc]
  cases hq : qLt c 0 with
  | false => simp
  | true => simp

theorem handleSave_night_nan (s : Store) (d wIn cIn : String)
    (hc : parseIntJS cIn = none) :
    handleSave s Mode.night d wIn cIn = ⟨s, false⟩ := by
  simp only [handleSave, hc]
  simp

theorem saveCurrent_morning_eq (s : Store) (d wIn cIn : String) (w : ℚ)
    (hd : d ≠ "") (hw : safeNumber wIn = some w) :
    saveCurrent s Mode.morning d wIn cIn =
      if qLe w 0 then ⟨s, false⟩
      else ⟨upsertRecord s
        ⟨d, some w, ((getRecord s d).getD ⟨d, none, none⟩).total_calorie⟩, true⟩ := by
  simp only [saveCurrent, if_neg hd, hw]
  cases hq : qLe w 0 with
  | false => simp
  | true => simp

theorem saveCurrent_morning_nan (s : Store) (d wIn cIn : String)
    (hw : safeNumber wIn = none) :
    saveCurrent s Mode.morning d wIn cIn = ⟨s, false⟩ := by
  simp only [saveCurrent, hw]
  by_cases hd : d = ""
  · simp [hd]
  · simp [if_neg hd]

theorem saveCurrent_night_eq (s : Store) (d wIn cIn : String) (c : ℚ)
    (hd : d ≠ "") (hc : safeNumber cIn = some c) :
    saveCurrent s Mode.night d wIn cIn =
      if qLe c 0 then ⟨s, false⟩
      else ⟨upsertRecord s
        ⟨d, ((getRecord s d).getD ⟨d, none, none⟩).weight, some c⟩, true⟩ := by
  simp only [saveCurrent, if_neg hd, hc]
  cases hq : qLe c 0 with
  | false => simp
  | true => simp

theorem saveCurrent_night_nan (s : Store) (d wIn cIn : String)
    (hc : safeNumber cIn = none) :
    saveCurrent s Mode.night d wIn cIn = ⟨s, false⟩ := by
  simp only [saveCurrent, hc]
  by_cases hd : d = ""
  · simp [hd]
  · simp [if_neg hd]

theorem jsNumber_empty : jsNumber "" = none := rfl

/-- A successful morning save in `part_000` writes the record built from the
two input boxes, with the weight rounded to one decimal. -/
theorem handleSave_morning_success (s : Store) (d wIn cIn : String) (w : ℚ)
    (hw : jsNumber wIn = some w) (hq : qLe w 0 = false) :
    getRecord (handleSave s Mode.morning d wIn cIn).store d =
      some ⟨d, some (round1 w), if cIn = "" then none else parseIntJS cIn⟩
    ∧ (handleSave s Mode.morning d wIn cIn).saved = true := by
  have hne : wIn ≠ "" := by
    intro h
    rw [h, jsNumber_empty] at hw
    exact Option.noConfusion hw
  rw [handleSave_morning_eq s d wIn cIn w hw, if_neg (by simp [hq])]
  constructor
  · simp only [if_neg hne, hw, Option.map_some]
    exact getRecord_upsertRecord s _
  · rfl

-- ---------------------------------------------------------------------
-- Claims C1, C7, C9, C10
-- ---------------------------------------------------------------------

/-- Claim C1, counterexample: in `part_000`, a record exists for the date
with `total_calorie = 0`; after loading it and saving in morning mode (the
weight box holding the loaded value), the stored record's untouched
`total_calorie` field is `null`, not its prior value `0`. -/
theorem untouched_field_counterexample :
    getRecord [⟨"2024-01-05", some 70, some 0⟩] "2024-01-05" =
      some ⟨"2024-01-05", some 70, some 0⟩
    ∧ handleSave [⟨"2024-01-05", some 70, some 0⟩] Mode.morning "2024-01-05"
        (loadDataForDate [⟨"2024-01-05", some 70, some 0⟩] "2024-01-05").1
        (loadDataForDate [⟨"2024-01-05", some 70, some 0⟩] "2024-01-05").2 =
      ⟨[⟨"2024-01-05", some 70, none⟩], true⟩
    ∧ getRecord
        (handleSave [⟨"2024-01-05", some 70, some 0⟩] Mode.morning "2024-01-05"
          (loadDataForDate [⟨"2024-01-05", some 70, some 0⟩] "2024-01-05").1
          (loadDataForDate [⟨"2024-01-05", some 70, some 0⟩] "2024-01-05").2).store
        "2024-01-05" = some ⟨"2024-01-05", some 70, none⟩ := by
  decide

/-- Claim C1 (amended): in the `part_001` variant, `saveCurrent` re-reads the
stored record and copies the untouched field, so for every existing record a
successful save in one mode leaves the other field equal to its value before
the save; in `part_000` preservation is routed through the UI inputs and
fails when the untouched `total_calorie` is `0` (see the counterexample). -/
theorem saveCurrent_preserves_untouched_field (s : Store) (d wIn cIn : String)
    (r : Record) (hr : getRecord s d = some r) (hd : d ≠ "") :
    (∀ w, safeNumber wIn = some w → qLe w 0 = false →
      getRecord (saveCurrent s Mode.morning d wIn cIn).store d =
        some ⟨d, some w, r.total_calorie⟩
      ∧ (saveCurrent s Mode.morning d wIn cIn).saved = true)
    ∧ (∀ c, safeNumber cIn = some c → qLe c 0 = false →
      getRecord (saveCurrent s Mode.night d wIn cIn).store d =
        some ⟨d, r.weight, some c⟩
      ∧ (saveCurrent s Mode.night d wIn cIn).saved = true) := by
  constructor
  · intro w hw hq
    rw [saveCurrent_morning_eq s d wIn cIn w hd hw, if_neg (by simp [hq])]
    constructor
    · simp only [hr, Option.getD_some]
      exact getRecord_upsertRecord s _
    · rfl
  · intro c hc hq
    rw [saveCurrent_night_eq s d wIn cIn c hd hc, if_neg (by simp [hq])]
    constructor
    · simp only [hr, Option.getD_some]
      exact getRecord_upsertRecord s _
    · rfl

theorem saveCurrent_preserves_untouched_field_witness :
    getRecord (saveCurrent [⟨"2024-01-05", some 70, some 500⟩] Mode.morning
        "2024-01-05" "71.5" "").store "2024-01-05" =
      some ⟨"2024-01-05", some (mkRat 715 10), some 500⟩
    ∧ (saveCurrent [⟨"2024-01-05", some 70, some 500⟩] Mode.morning
        "2024-01-05" "71.5" "").saved = true :=
  (saveCurrent_preserves_untouched_field [⟨"2024-01-05", some 70, some 500⟩]
    "2024-01-05" "71.5" "" ⟨"2024-01-05", some 70, some 500⟩ (by decide) (by decide)).1
    (mkRat 715 10) (by decide) (by decide)

/-- Claim C7, counterexample: in the `part_001` variant a calorie entry of
`0` is rejected (validation requires `> 0`), the save is aborted and no
write is issued — the claim's `calorie >= 0` constraint does not hold
there. -/
theorem calorie_zero_rejected_counterexample :
    saveCurrent [] Mode.night "2024-01-05" "" "0" = ⟨[], false⟩
    ∧ safeNumber "0" = some 0 := by
  decide

/-- Claim C7 (amended): in `part_000` the constraints are `weight > 0`
(morning) and `calorie >= 0` (night, so `0` is accepted and written); in
`part_001` both constraints are strict (`> 0`), so a calorie of `0` is
rejected.  In both variants a non-numeric or out-of-range entry aborts the
save with a blocking message and no write is issued: the store is returned
unchanged. -/
theorem validation_constraints (s : Store) (d wIn cIn : String) :
    (jsNumber wIn = none → handleSave s Mode.morning d wIn cIn = ⟨s, false⟩)
    ∧ (∀ w, jsNumber wIn = some w → qLe w 0 = true →
        handleSave s Mode.morning d wIn cIn = ⟨s, false⟩)
    ∧ (parseIntJS cIn = none → handleSave s Mode.night d wIn cIn = ⟨s, false⟩)
    ∧ (∀ c, parseIntJS cIn = some c → qLt c 0 = true →
        handleSave s Mode.night d wIn cIn = ⟨s, false⟩)
    ∧ (∀ c, parseIntJS cIn = some c → qLt c 0 = false →
        (handleSave s Mode.night d wIn cIn).saved = true)
    ∧ (safeNumber wIn = none → saveCurrent s Mode.morning d wIn cIn = ⟨s, false⟩)
    ∧ (∀ w, safeNumber wIn = some w → qLe w 0 = true →
        saveCurrent s Mode.morning d wIn cIn = ⟨s, false⟩)
    ∧ (safeNumber cIn = none → saveCurrent s Mode.night d wIn cIn = ⟨s, false⟩)
    ∧ (∀ c, safeNumber cIn = some c → qLe c 0 = true →
        saveCurrent s Mode.night d wIn cIn = ⟨s, false⟩) := by
  refine ⟨?_, ?_, ?_, ?_, ?_, ?_, ?_, ?_, ?_⟩
  · intro h
    exact handleSave_morning_nan s d wIn cIn h
  · intro w hw hq
    rw [handleSave_morning_eq s d wIn cIn w hw, if_pos (by simp [hq])]
  · intro h
    exact handleSave_night_nan s d wIn cIn h
  · intro c hc hq
    rw [handleSave_night_eq s d wIn cIn c hc, if_pos (by simp [hq])]
  · intro c hc hq
    rw [handleSave_night_eq s d wIn cIn c hc, if_neg (by simp [hq])]
  · intro h
    exact saveCurrent_morning_nan s d wIn cIn h
  · intro w hw hq
    by_cases hd : d = ""
    · simp [saveCurrent, hd]
    · rw [saveCurrent_morning_eq s d wIn cIn w hd hw, if_pos (by simp [hq])]
  · intro h
    exact saveCurrent_night_nan s d wIn cIn h
  · intro c hc hq
    by_cases hd : d = ""
    · simp [saveCurrent, hd]
    · rw [saveCurrent_night_eq s d wIn cIn c hd hc, if_pos (by simp [hq])]

theorem validation_constraints_witness :
    handleSave [] Mode.night "2024-01-05" "" "-5" = ⟨[], false⟩
    ∧ (handleSave [] Mode.night "2024-01-05" "" "0").saved = true
    ∧ saveCurrent [] Mode.night "2024-01-05" "" "0" = ⟨[], false⟩
    ∧ handleSave [] Mode.morning "2024-01-05" "" "" = ⟨[], false⟩ := by
  refine ⟨?_, ?_, ?_, ?_⟩
  · exact (validation_constraints [] "2024-01-05" "" "-5").2.2.2.1
      (mkRat (-5) 1) (by decide) (by decide)
  · exact (validation_constraints [] "2024-01-05" "" "0").2.2.2.2.1
      (mkRat 0 1) (by decide) (by decide)
  · exact (validation_constraints [] "2024-01-05" "" "0").2.2.2.2.2.2.2.2
      (mkRat 0 1) (by decide) (by decide)
  · exact (validation_constraints [] "2024-01-05" "" "").1 (by decide)

/-- Claim C9, counterexample: in the `part_001` variant the entered weight
`75.26` is stored as-is, not rounded to one decimal. -/
theorem unrounded_weight_counterexample :
    saveCurrent [] Mode.morning "2024-01-05" "75.26" "" =
      ⟨[⟨"2024-01-05", some (mkRat 7526 100), none⟩], true⟩
    ∧ mkRat 7526 100 ≠ round1 (mkRat 7526 100)
    ∧ (mkRat 7526 100 * 10).den ≠ 1 := by
  constructor
  · decide
  · constructor
    · decide
    · rw [← qMul_eq]
      decide

/-- Claim C9 (amended): in the `part_000` variant every successful morning
save writes `Math.round(entered * 10) / 10` — the entered weight rounded to
one decimal place, so the stored weight times `10` is an integer; the
`part_001` variant stores the entered value unrounded (see the
counterexample). -/
theorem handleSave_writes_rounded_weight (s : Store) (d wIn cIn : String) (w : ℚ)
    (hw : jsNumber wIn = some w) (hq : qLe w 0 = false) :
    getRecord (handleSave s Mode.morning d wIn cIn).store d =
      some ⟨d, some (round1 w), if cIn = "" then none else parseIntJS cIn⟩
    ∧ (handleSave s Mode.morning d wIn cIn).saved = true
    ∧ (round1 w * 10).den = 1 := by
  obtain ⟨h1, h2⟩ := handleSave_morning_success s d wIn cIn w hw hq
  refine ⟨h1, h2, ?_⟩
  have hcancel : round1 w * 10 = ((jsRound (qMul w 10) : ℤ) : ℚ) := by
    rw [round1, qDiv_eq]
    field_simp
  rw [hcancel, Rat.den_intCast]

theorem handleSave_writes_rounded_weight_witness :
    getRecord (handleSave [] Mode.morning "2024-01-05" "75.26" "").store "2024-01-05" =
      some ⟨"2024-01-05", some (round1 (mkRat 7526 100)),
            if ("" : String) = "" then none else parseIntJS ""⟩
    ∧ (handleSave [] Mode.morning "2024-01-05" "75.26" "").saved = true
    ∧ (round1 (mkRat 7526 100) * 10).den = 1 :=
  handleSave_writes_rounded_weight [] "2024-01-05" "75.26" ""
    (mkRat 7526 100) (by decide) (by decide)

/-- Claim C10: in the `part_000` variant, loading a date whose stored record
has `total_calorie = 0` fills the calorie box with the empty string (`0` is
falsy), so a subsequent successful morning save writes `total_calorie =
null` — the stored `0` is not preserved across a load-then-save cycle. -/
theorem zero_calorie_lost_on_resave (s : Store) (d : String) (r : Record)
    (wIn : String) (w : ℚ) (hr : getRecord s d = some r)
    (hc : r.total_calorie = some 0) (hw : jsNumber wIn = some w)
    (hq : qLe w 0 = false) :
    (loadDataForDate s d).2 = ""
    ∧ getRecord (handleSave s Mode.morning d wIn (loadDataForDate s d).2).store d =
        some ⟨d, some (round1 w), none⟩
    ∧ (handleSave s Mode.morning d wIn (loadDataForDate s d).2).saved = true := by
  have hload : (loadDataForDate s d).2 = "" := by
    rw [loadDataForDate]
    simp [hr, hc]
  rw [hload]
  obtain ⟨h1, h2⟩ := handleSave_morning_success s d wIn "" w hw hq
  rw [if_pos rfl] at h1
  exact ⟨rfl, h1, h2⟩

theorem zero_calorie_lost_on_resave_witness :
    (loadDataForDate [⟨"2024-01-05", some 70, some 0⟩] "2024-01-05").2 = ""
    ∧ getRecord (handleSave [⟨"2024-01-05", some 70, some 0⟩] Mode.morning
        "2024-01-05" "70.0"
        (loadDataForDate [⟨"2024-01-05", some 70, some 0⟩] "2024-01-05").2).store
        "2024-01-05" = some ⟨"2024-01-05", some (round1 70), none⟩
    ∧ (handleSave [⟨"2024-01-05", some 70, some 0⟩] Mode.morning "2024-01-05" "70.0"
        (loadDataForDate [⟨"2024-01-05", some 70, some 0⟩] "2024-01-05").2).saved =
      true :=
  zero_calorie_lost_on_resave [⟨"2024-01-05", some 70, some 0⟩] "2024-01-05"
    ⟨"2024-01-05", some 70, some 0⟩ "70.0" 70 (by decide) (by decide) (by decide)
    (by decide)

-- ---------------------------------------------------------------------
-- Folded minimum and maximum (`Math.min(...)` / `Math.max(...)`)
-- ---------------------------------------------------------------------

theorem foldl_qMin_eq : ∀ (l : List ℚ) (a : ℚ), List.foldl qMin a l = List.foldl min a l
  | [], _ => rfl
  | x :: xs, a => by
    rw [List.foldl_cons, List.foldl_cons, qMin_eq]
    exact foldl_qMin_eq xs (min a x)

theorem foldl_qMax_eq : ∀ (l : List ℚ) (a : ℚ), List.foldl qMax a l = List.foldl max a l
  | [], _ => rfl
  | x :: xs, a => by
    rw [List.foldl_cons, List.foldl_cons, qMax_eq]
    exact foldl_qMax_eq xs (max a x)

theorem foldl_min_le_init : ∀ (l : List ℚ) (a : ℚ), List.foldl min a l ≤ a
  | [], a => le_refl a
  | x :: xs, a => le_trans (foldl_min_le_init xs (min a x)) (min_le_left a x)

theorem foldl_min_le_mem : ∀ (l : List ℚ) (a x : ℚ), x ∈ l → List.foldl min a l ≤ x
  | [], _, _, hx => absurd hx (List.not_mem_nil _)
  | y :: ys, a, x, hx => by
    rcases List.mem_cons.mp hx with h | h
    · subst h
      exact le_trans (foldl_min_le_init ys (min a x)) (min_le_right a x)
    · exact foldl_min_le_mem ys (min a y) x h

theorem foldl_min_mem : ∀ (l : List ℚ) (a : ℚ),
    List.foldl min a l = a ∨ List.foldl min a l ∈ l
  | [], _ => Or.inl rfl
  | x :: xs, a => by
    rcases foldl_min_mem xs (min a x) with h | h
    · rw [List.foldl_cons, h]
      rcases min_choice a x with hc | hc
      · exact Or.inl hc
      · exact Or.inr (by rw [hc]; exact List.mem_cons_self x xs)
    · exact Or.inr (List.mem_cons_of_mem x h)

theorem foldl_max_init_le : ∀ (l : List ℚ) (a : ℚ), a ≤ List.foldl max a l
  | [], a => le_refl a
  | x :: xs, a => le_trans (le_max_left a x) (foldl_max_init_le xs (max a x))

theorem foldl_max_mem_le : ∀ (l : List ℚ) (a x : ℚ), x ∈ l → x ≤ List.foldl max a l
  | [], _, _, hx => absurd hx (List.not_mem_nil _)
  | y :: ys, a, x, hx => by
    rcases List.mem_cons.mp hx with h | h
    · subst h
      exact le_trans (le_max_right a x) (foldl_max_init_le ys (max a x))
    · exact foldl_max_mem_le ys (max a y) x h

theorem foldl_max_mem : ∀ (l : List ℚ) (a : ℚ),
    List.foldl max a l = a ∨ List.foldl max a l ∈ l
  | [], _ => Or.inl rfl
  | x :: xs, a => by
    rcases foldl_max_mem xs (max a x) with h | h
    · rw [List.foldl_cons, h]
      rcases max_choice a x with hc | hc
      · exact Or.inl hc
      · exact Or.inr (by rw [hc]; exact List.mem_cons_self x xs)
    · exact Or.inr (List.mem_cons_of_mem x h)

-- ---------------------------------------------------------------------
-- Claim C3
-- ---------------------------------------------------------------------

/-- The three records of the specification's worked example. -/
def exampleRecords : List Record :=
  [⟨"2024-01-01", some 70, none⟩,
   ⟨"2024-01-02", some (mkRat 139 2), some 1800⟩,
   ⟨"2024-01-03", none, some 2000⟩]

/-- Claim C3, counterexample: a record with weight `0` is discarded by the
`part_000` aggregator (its filtered set is empty, so it shows `'-'`), but the
`part_001` aggregator keeps it and shows count `1` and mean `0` instead of
`'-'`. -/
theorem summary_keeps_nonpositive_counterexample :
    weightValues000 [⟨"2024-01-01", some 0, none⟩] = []
    ∧ renderSummaryWeight [⟨"2024-01-01", some 0, none⟩] = none
    ∧ summaryWeight001 [⟨"2024-01-01", some 0, none⟩] = some ⟨1, 0⟩ := by
  decide

/-- Claim C3 (amended): the `part_000` aggregator discards `null` and
non-positive values for both metrics, shows `'-'` exactly when nothing
survives, and otherwise reports the count, the arithmetic mean, and (for
weight) the minimum and maximum of the surviving values.  The `part_001`
aggregator discards only `null` values (keeping values `<= 0`), reports
count and mean only (no min/max), and shows `'-'` exactly when no numeric
value is present. -/
theorem summary_aggregator (rs : List Record) :
    (renderSummaryWeight rs = none ↔ weightValues000 rs = [])
    ∧ (∀ st, renderSummaryWeight rs = some st →
        st.n = (weightValues000 rs).length
        ∧ (st.n : ℚ) * st.avg = sumQ (weightValues000 rs)
        ∧ st.wmin ∈ weightValues000 rs
        ∧ st.wmax ∈ weightValues000 rs
        ∧ (∀ x ∈ weightValues000 rs, st.wmin ≤ x ∧ x ≤ st.wmax))
    ∧ (renderSummaryCalorie rs = none ↔ calorieValues000 rs = [])
    ∧ (∀ st, renderSummaryCalorie rs = some st →
        st.n = (calorieValues000 rs).length
        ∧ st.avg = jsRound (qDiv (sumQ (calorieValues000 rs)) ((st.n : ℕ) : ℚ)))
    ∧ (summaryWeight001 rs = none ↔ weightValues001 rs = [])
    ∧ (∀ st, summaryWeight001 rs = some st →
        st.n = (weightValues001 rs).length
        ∧ (st.n : ℚ) * st.avg = sumQ (weightValues001 rs))
    ∧ (summaryCalorie001 rs = none ↔ calorieValues001 rs = []) := by
  refine ⟨?_, ?_, ?_, ?_, ?_, ?_, ?_⟩
  · rw [renderSummaryWeight]
    cases hv : weightValues000 rs with
    | nil => simp
    | cons w ws => simp
  · intro st hst
    rw [renderSummaryWeight] at hst
    cases hv : weightValues000 rs with
    | nil => rw [hv] at hst; exact Option.noConfusion hst
    | cons w ws =>
      rw [hv] at hst
      injection hst with hst
      subst hst
      refine ⟨rfl, ?_, ?_, ?_, ?_⟩
      · show ((w :: ws).length : ℚ) * qDiv (sumQ (w :: ws)) (((w :: ws).length : ℕ) : ℚ) = _
        rw [qDiv_eq]
        rw [mul_div_cancel₀]
        exact Nat.cast_ne_zero.mpr (Nat.succ_ne_zero ws.length)
      · show List.foldl qMin w ws ∈ w :: ws
        rw [foldl_qMin_eq]
        rcases foldl_min_mem ws w with h | h
        · rw [h]; exact List.mem_cons_self w ws
        · exact List.mem_cons_of_mem w h
      · show List.foldl qMax w ws ∈ w :: ws
        rw [foldl_qMax_eq]
        rcases foldl_max_mem ws w with h | h
        · rw [h]; exact List.mem_cons_self w ws
        · exact List.mem_cons_of_mem w h
      · intro x hx
        constructor
        · show List.foldl qMin w ws ≤ x
          rw [foldl_qMin_eq]
          rcases List.mem_cons.mp hx with h | h
          · rw [h]
            exact foldl_min_le_init ws w
          · exact foldl_min_le_mem ws w x h
        · show x ≤ List.foldl qMax w ws
          rw [foldl_qMax_eq]
          rcases List.mem_cons.mp hx with h | h
          · rw [h]
            exact foldl_max_init_le ws w
          · exact foldl_max_mem_le ws w x h
  · rw [renderSummaryCalorie]
    cases hv : calorieValues000 rs with
    | nil => simp
    | cons c cs => simp
  · intro st hst
    rw [renderSummaryCalorie] at hst
    cases hv : calorieValues000 rs with
    | nil => rw [hv] at hst; exact Option.noConfusion hst
    | cons c cs =>
      rw [hv] at hst
      injection hst with hst
      subst hst
      exact ⟨rfl, rfl⟩
  · rw [summaryWeight001]
    cases hv : weightValues001 rs with
    | nil => simp
    | cons w ws => simp
  · intro st hst
    rw [summaryWeight001] at hst
    cases hv : weightValues001 rs with
    | nil => rw [hv] at hst; exact Option.noConfusion hst
    | cons w ws =>
      rw [hv] at hst
      injection hst with hst
      subst hst
      refine ⟨rfl, ?_⟩
      show ((w :: ws).length : ℚ) * qDiv (sumQ (w :: ws)) (((w :: ws).length : ℕ) : ℚ) = _
      rw [qDiv_eq]
      rw [mul_div_cancel₀]
      exact Nat.cast_ne_zero.mpr (Nat.succ_ne_zero ws.length)
  · rw [summaryCalorie001]
    cases hv : calorieValues001 rs with
    | nil => simp
    | cons c cs => simp

theorem summary_aggregator_witness :
    renderSummaryWeight exampleRecords = some ⟨2, mkRat 279 4, mkRat 139 2, 70⟩
    ∧ (⟨2, mkRat 279 4, mkRat 139 2, 70⟩ : WeightStats).n =
        (weightValues000 exampleRecords).length
    ∧ (((⟨2, mkRat 279 4, mkRat 139 2, 70⟩ : WeightStats).n : ℕ) : ℚ) * mkRat 279 4 =
        sumQ (weightValues000 exampleRecords) := by
  have h := (summary_aggregator exampleRecords).2.1
    ⟨2, mkRat 279 4, mkRat 139 2, 70⟩ (by decide)
  exact ⟨by decide, h.1, h.2.1⟩

-- ---------------------------------------------------------------------
-- Claim C2
-- ---------------------------------------------------------------------

/-- Claim C2, counterexample: in the `part_001` variant a reversed range
(start after end) makes `clampDateRange` return `null`, so `updateReport`
aborts with a blocking alert instead of returning an empty sequence. -/
theorem range_reversed_aborts_counterexample :
    clampDateRange "2024-01-02" "2024-01-01" = none
    ∧ updateReport001 [] "2024-01-02" "2024-01-01" = none
    ∧ updateReport001 [] "2024-01-02" "2024-01-01" ≠ some [] := by
  decide

/-- Claim C2 (amended): in `part_000` the range query returns exactly the
records whose date lies in the inclusive string window, sorted ascending,
and an empty list (not a failure) when no record matches — including
`start > end`.  In `part_001` a range that fails `clampDateRange` (either
bound unparsable, or `start > end`) aborts with a user alert and yields no
sequence at all; for an accepted range it returns exactly the records whose
parsed date key lies within the bounds, sorted ascending. -/
theorem range_query (db : Store) (startStr endStr : String) :
    (startStr ≠ "" → endStr ≠ "" →
      updateReport000 db startStr endStr = some (reportRange000 db startStr endStr))
    ∧ List.Pairwise dateRel (reportRange000 db startStr endStr)
    ∧ List.Perm (reportRange000 db startStr endStr)
        (List.filter
          (fun r => lexLe startStr.data r.date.data && lexLe r.date.data endStr.data) db)
    ∧ (∀ r, r ∈ reportRange000 db startStr endStr ↔
        r ∈ db ∧ lexLe startStr.data r.date.data = true
          ∧ lexLe r.date.data endStr.data = true)
    ∧ (lexLe startStr.data endStr.data = false →
        reportRange000 db startStr endStr = [])
    ∧ (clampDateRange startStr endStr = none →
        updateReport001 db startStr endStr = none)
    ∧ (∀ ks ke, clampDateRange startStr endStr = some (ks, ke) →
        updateReport001 db startStr endStr =
          some (sortByDate (List.filter (inRange001 ks ke) db))
        ∧ List.Pairwise dateRel (sortByDate (List.filter (inRange001 ks ke) db))
        ∧ List.Perm (sortByDate (List.filter (inRange001 ks ke) db))
            (List.filter (inRange001 ks ke) db)) := by
  refine ⟨?_, sortByDate_sorted _, sortByDate_perm _, ?_, ?_, ?_, ?_⟩
  · intro h1 h2
    rw [updateReport000, if_neg (by simp [h1, h2])]
  · intro r
    rw [reportRange000]
    rw [(sortByDate_perm _).mem_iff, List.mem_filter]
    rw [Bool.and_eq_true]
  · intro hse
    rw [reportRange000]
    have hnil : List.filter
        (fun r => lexLe startStr.data r.date.data && lexLe r.date.data endStr.data) db
        = [] := by
      rw [List.filter_eq_nil_iff]
      intro r _
      rw [Bool.and_eq_true]
      rintro ⟨ha, hb⟩
      rw [lexLe_trans _ _ _ ha hb] at hse
      exact Bool.noConfusion hse
    rw [hnil]
    rfl
  · intro hclamp
    rw [updateReport001, hclamp]
  · intro ks ke hclamp
    refine ⟨?_, sortByDate_sorted _, sortByDate_perm _⟩
    rw [updateReport001, hclamp]

theorem range_query_witness :
    updateReport000 exampleRecords "2024-01-01" "2024-01-02" =
      some (reportRange000 exampleRecords "2024-01-01" "2024-01-02")
    ∧ updateReport001 exampleRecords "2024-01-02" "2024-01-01" = none
    ∧ updateReport001 exampleRecords "2024-01-01" "2024-01-02" =
        some (sortByDate (List.filter (inRange001 20240101 20240102) exampleRecords)) := by
  refine ⟨?_, ?_, ?_⟩
  · exact (range_query exampleRecords "2024-01-01" "2024-01-02").1 (by decide) (by decide)
  · exact (range_query exampleRecords "2024-01-02" "2024-01-01").2.2.2.2.2.1 (by decide)
  · exact ((range_query exampleRecords "2024-01-01" "2024-01-02").2.2.2.2.2.2
      20240101 20240102 (by decide)).1

-- ---------------------------------------------------------------------
-- Claim C5
-- ---------------------------------------------------------------------

/-- Claim C5, counterexample: in the `part_000` variant the export's first
line is the `data:` URI prefix followed by the capitalized header
`Date,Weight,TotalCalorie`, not `date,weight,total_calorie`. -/
theorem export_header_counterexample :
    firstLine ((handleExport [⟨"2024-01-01", some 70, none⟩]).getD "") =
      "data:text/csv;charset=utf-8,Date,Weight,TotalCalorie"
    ∧ firstLine ((handleExport [⟨"2024-01-01", some 70, none⟩]).getD "") ≠
      "date,weight,total_calorie" := by
  decide

/-- Claim C5 (amended): the `part_001` export produces, as its `'\n'`-joined
line list, the header `date,weight,total_calorie` followed by exactly one
row per record in ascending date order, with `''` in place of each absent
field; on the specification's three-record example it yields exactly the
expected text.  The `part_000` variant instead prefixes a `data:` URI
scheme, capitalizes the header (`Date,Weight,TotalCalorie`), terminates
every row with `'\n'`, and aborts on an empty table (see the
counterexample). -/
theorem export_csv (rs : List Record) :
    (exportLines rs).length = rs.length + 1
    ∧ List.headD (exportLines rs) "" = "date,weight,total_calorie"
    ∧ List.tail (exportLines rs) = List.map csvRow (sortByDate rs)
    ∧ List.Perm (sortByDate rs) rs
    ∧ List.Pairwise dateRel (sortByDate rs)
    ∧ csvCell none = "" ∧ (∀ w : ℚ, csvCell (some w) = ratToDec w)
    ∧ exportCSV exampleRecords =
        "date,weight,total_calorie\n2024-01-01,70,\n2024-01-02,69.5,1800\n2024-01-03,,2000" := by
  refine ⟨?_, rfl, rfl, sortByDate_perm rs, sortByDate_sorted rs, rfl, fun w => rfl, by decide⟩
  rw [exportLines, List.length_cons, List.length_map, (sortByDate_perm rs).length_eq]

end WeightLog
